import Mathlib

set_option linter.constructorNameAsVariable false

/-!
Verification development for the `graphix_symbolic` symbolic-parameter core
(`sympy_parameter.py`): a shallow embedding of `SympyExpression` and
`SympyParameter`, together with proofs about arithmetic-operator dispatch,
the NaN modulo escape hatch, substitution (`subs`), batched substitution
(`xreplace`), and the immutability of expression objects.

The sympy engine itself is external to the repository; we embed the fragment
of it the code uses: expression trees over named symbols and numeric literals,
symbol substitution, free-symbol computation, and numeric evaluation (`sp.N`).
Numeric literals carry an exact/approximate tag mirroring sympy's
`Integer`/`Rational` versus `Float` distinction (with `Float` idealised as an
exact complex value; rounding is not modelled).
-/

/-- A sympy numeric literal: exact (`Integer`/`Rational`) or an approximate
`Float` produced by numeric evaluation (idealised without rounding). -/
inductive SymNum
| exact (q : ℚ)
| approx (c : ℂ)

/-- Value of a numeric literal as a complex number. -/
noncomputable def SymNum.toC : SymNum → ℂ
| .exact q => (q : ℂ)
| .approx c => c

/-- Unary operators appearing in expression trees: negation and the
transcendental transforms exposed by `SympyExpression`. -/
inductive UnOp
| neg
| sin
| cos
| tan
| arcsin
| arccos
| arctan
| exp
| log
| conj
| sqrt

/-- Binary operators appearing in expression trees. -/
inductive BinOp
| add
| sub
| mul
| div
| pow

/-- Embedding of the sympy expression trees (`sp.Expr`) built by the code:
numeric literals, named symbols (`sp.Symbol`), and unary/binary operator
nodes. -/
inductive SExpr
| num (n : SymNum)
| symbol (s : String)
| una (op : UnOp) (a : SExpr)
| bin (op : BinOp) (a b : SExpr)

/-- Complex arcsine, used to give a meaning to the `arcsin` node
(the standard logarithmic formula). -/
noncomputable def casin (z : ℂ) : ℂ :=
  -Complex.I * Complex.log (Complex.I * z + (1 - z ^ 2) ^ ((1 : ℂ) / 2))

/-- Complex arccosine. -/
noncomputable def cacos (z : ℂ) : ℂ := Real.pi / 2 - casin z

/-- Complex square root as the principal power `z ^ (1/2)`. -/
noncomputable def csqrt (z : ℂ) : ℂ := z ^ ((1 : ℂ) / 2)

/-- Meaning of a unary operator node as a function on `ℂ`. -/
noncomputable def UnOp.denote : UnOp → ℂ → ℂ
| .neg => fun z => -z
| .sin => Complex.sin
| .cos => Complex.cos
| .tan => Complex.tan
| .arcsin => casin
| .arccos => cacos
| .arctan => Complex.arctan
| .exp => Complex.exp
| .log => Complex.log
| .conj => fun z => (starRingEnd ℂ) z
| .sqrt => csqrt

/-- Meaning of a binary operator node as a function on `ℂ`. -/
noncomputable def BinOp.denote : BinOp → ℂ → ℂ → ℂ
| .add => fun a b => a + b
| .sub => fun a b => a - b
| .mul => fun a b => a * b
| .div => fun a b => a / b
| .pow => fun a b => a ^ b

/-- Denotation of an expression tree under an assignment of complex values
to symbol names. -/
noncomputable def SExpr.denote : SExpr → (String → ℂ) → ℂ
| .num n, _ => n.toC
| .symbol s, env => env s
| .una op a, env => op.denote (a.denote env)
| .bin op a b, env => op.denote (a.denote env) (b.denote env)

/-- Denotation of a closed expression (the environment is irrelevant when the
expression has no free symbols). -/
noncomputable def SExpr.denote0 (e : SExpr) : ℂ := e.denote fun _ => 0

/-- Free symbol names of an expression tree (sympy's `free_symbols`,
as a list with possible duplicates). -/
def SExpr.freeVars : SExpr → List String
| .num _ => []
| .symbol s => [s]
| .una _ a => a.freeVars
| .bin _ a b => a.freeVars ++ b.freeVars

/-- Sympy's single-pair `Expr.subs`: replace every occurrence of the symbol
called `name` by the tree `v`. -/
def SExpr.subs (e : SExpr) (name : String) (v : SExpr) : SExpr :=
  match e with
  | .num n => .num n
  | .symbol s => if s = name then v else .symbol s
  | .una op a => .una op (a.subs name v)
  | .bin op a b => .bin op (a.subs name v) (b.subs name v)

/-- Sympy's `Expr.xreplace` restricted to symbol keys: simultaneous
replacement; substituted values are not themselves further substituted. -/
def SExpr.xreplace (e : SExpr) (m : List (String × SExpr)) : SExpr :=
  match e with
  | .num n => .num n
  | .symbol s =>
      match m.lookup s with
      | some v => v
      | none => .symbol s
  | .una op a => .una op (a.xreplace m)
  | .bin op a b => .bin op (a.xreplace m) (b.xreplace m)

/-- Sympy's numeric evaluation `sp.N`: a subtree with no free symbols is
collapsed to an approximate (`Float`) literal holding its value; elsewhere
the tree is traversed and exact literals are converted to approximate ones. -/
noncomputable def SExpr.numEval : SExpr → SExpr
| .num n => .num (.approx n.toC)
| .symbol s => .symbol s
| .una op a =>
    if (SExpr.una op a).freeVars.isEmpty then .num (.approx (SExpr.denote0 (.una op a)))
    else .una op a.numEval
| .bin op a b =>
    if (SExpr.bin op a b).freeVars.isEmpty then .num (.approx (SExpr.denote0 (.bin op a b)))
    else .bin op a.numEval b.numEval

/-- Whether the tree is a bare numeric literal (the
`isinstance(result, numbers.Number)` test on a sympy result). -/
def SExpr.isNumber : SExpr → Bool
| .num _ => true
| _ => false

/-- Every numeric literal in the tree is an approximate (`Float`) literal. -/
def SExpr.allApprox : SExpr → Bool
| .num (.exact _) => false
| .num (.approx _) => true
| .symbol _ => true
| .una _ a => a.allApprox
| .bin _ a b => a.allApprox && b.allApprox

/-- A Python number operand: `int` (exact) or `float`/`complex`
(inexact, idealised as an exact complex value). -/
inductive PyNum
| int (n : ℤ)
| cplx (c : ℂ)

/-- Sympy's sympification of a Python number into a literal. -/
noncomputable def PyNum.toSNum : PyNum → SymNum
| .int n => .exact (n : ℚ)
| .cplx c => .approx c

/-- Value of a Python number as a complex number. -/
noncomputable def PyNum.toC : PyNum → ℂ
| .int n => (n : ℂ)
| .cplx c => c

/-- The runtime kind of the `other` operand received by an arithmetic magic
method: a number (`numbers.Number`), a `SympyExpression` (carrying its
`_expression` tree), or anything else. -/
inductive Operand
| num (n : PyNum)
| expr (e : SExpr)
| other

/-- `SympyExpression.__mul__`: dispatch on the operand kind; `NotImplemented`
(modelled as `none`) on an unsupported kind. -/
noncomputable def SympyExpression.mul (self : SExpr) : Operand → Option SExpr
| .num n => some (.bin .mul self (.num n.toSNum))
| .expr o => some (.bin .mul self o)
| .other => none

/-- `SympyExpression.__rmul__`. -/
noncomputable def SympyExpression.rmul (self : SExpr) : Operand → Option SExpr
| .num n => some (.bin .mul (.num n.toSNum) self)
| .expr o => some (.bin .mul o self)
| .other => none

/-- `SympyExpression.__add__`. -/
noncomputable def SympyExpression.add (self : SExpr) : Operand → Option SExpr
| .num n => some (.bin .add self (.num n.toSNum))
| .expr o => some (.bin .add self o)
| .other => none

/-- `SympyExpression.__radd__`. -/
noncomputable def SympyExpression.radd (self : SExpr) : Operand → Option SExpr
| .num n => some (.bin .add (.num n.toSNum) self)
| .expr o => some (.bin .add o self)
| .other => none

/-- `SympyExpression.__sub__`. -/
noncomputable def SympyExpression.sub (self : SExpr) : Operand → Option SExpr
| .num n => some (.bin .sub self (.num n.toSNum))
| .expr o => some (.bin .sub self o)
| .other => none

/-- `SympyExpression.__rsub__`. -/
noncomputable def SympyExpression.rsub (self : SExpr) : Operand → Option SExpr
| .num n => some (.bin .sub (.num n.toSNum) self)
| .expr o => some (.bin .sub o self)
| .other => none

/-- `SympyExpression.__pow__`. -/
noncomputable def SympyExpression.pow (self : SExpr) : Operand → Option SExpr
| .num n => some (.bin .pow self (.num n.toSNum))
| .expr o => some (.bin .pow self o)
| .other => none

/-- `SympyExpression.__rpow__`. -/
noncomputable def SympyExpression.rpow (self : SExpr) : Operand → Option SExpr
| .num n => some (.bin .pow (.num n.toSNum) self)
| .expr o => some (.bin .pow o self)
| .other => none

/-- `SympyExpression.__neg__`. -/
def SympyExpression.neg (self : SExpr) : SExpr := .una .neg self

/-- `SympyExpression.__truediv__`. -/
noncomputable def SympyExpression.truediv (self : SExpr) : Operand → Option SExpr
| .num n => some (.bin .div self (.num n.toSNum))
| .expr o => some (.bin .div self o)
| .other => none

/-- `SympyExpression.__rtruediv__`. -/
noncomputable def SympyExpression.rtruediv (self : SExpr) : Operand → Option SExpr
| .num n => some (.bin .div (.num n.toSNum) self)
| .expr o => some (.bin .div o self)
| .other => none

/-- A Python `float` result: NaN or an ordinary value. -/
inductive PyFloat
| nan
| val (x : ℝ)

/-- `SympyExpression.__mod__`: unconditionally `np.nan`, for any operand. -/
def SympyExpression.mod (_self : SExpr) (_other : Operand) : PyFloat := .nan

/-- `SympyExpression.sin`. -/
def SympyExpression.sin (self : SExpr) : SExpr := .una .sin self

/-- `SympyExpression.cos`. -/
def SympyExpression.cos (self : SExpr) : SExpr := .una .cos self

/-- `SympyExpression.tan`. -/
def SympyExpression.tan (self : SExpr) : SExpr := .una .tan self

/-- `SympyExpression.arcsin`. -/
def SympyExpression.arcsin (self : SExpr) : SExpr := .una .arcsin self

/-- `SympyExpression.arccos`. -/
def SympyExpression.arccos (self : SExpr) : SExpr := .una .arccos self

/-- `SympyExpression.arctan`. -/
def SympyExpression.arctan (self : SExpr) : SExpr := .una .arctan self

/-- `SympyExpression.exp`. -/
def SympyExpression.exp (self : SExpr) : SExpr := .una .exp self

/-- `SympyExpression.log`. -/
def SympyExpression.log (self : SExpr) : SExpr := .una .log self

/-- `SympyExpression.conjugate`. -/
def SympyExpression.conjugate (self : SExpr) : SExpr := .una .conj self

/-- `SympyExpression.sqrt`. -/
def SympyExpression.sqrt (self : SExpr) : SExpr := .una .sqrt self

/-- The `value` argument of `subs`/`xreplace`: a numeric scalar or an
expression. -/
inductive PyValue
| int (n : ℤ)
| cplx (c : ℂ)
| expr (e : SExpr)

/-- The tree substituted in for a value (sympy's sympification; a
`SympyExpression` value contributes its underlying representation). -/
noncomputable def PyValue.toSExpr : PyValue → SExpr
| .int n => .num (.exact (n : ℚ))
| .cplx c => .num (.approx c)
| .expr e => e

/-- The runtime kind of the `variable` argument of `subs`: a `SympyParameter`
(created from a name, wrapping `sp.Symbol(name)`), or a `Parameter` of some
other symbolic system. The `oid` component models Python object identity:
two parameters created separately are distinct objects even when their
names coincide. -/
inductive PyParameter
| sympyParam (oid : Nat) (pname : String)
| foreign (oid : Nat) (pname : String)

/-- The `isinstance(variable, SympyParameter)` test. -/
def PyParameter.isSympyParameter : PyParameter → Bool
| .sympyParam _ _ => true
| .foreign _ _ => false

/-- The `name` attribute. -/
def PyParameter.paramName : PyParameter → String
| .sympyParam _ n => n
| .foreign _ n => n

/-- A `SympyParameter`'s `_expression` field: the single symbol
`sp.Symbol(name)` wrapped at construction. -/
def PyParameter.expression (p : PyParameter) : SExpr := .symbol p.paramName

/-- The error raised by `subs`/`xreplace` on a substitution target that is
not a `SympyParameter` (the incompatible-variable-kind `ValueError`). -/
inductive ParamError
| incompatibleVariableKind

/-- The result of substitution: a concrete complex number, or a new
symbolic `SympyExpression` wrapping the given representation. -/
inductive ExprOrNum
| num (c : ℂ)
| expr (e : SExpr)

/-- `SympyExpression.subs`: validate that `var` is a `SympyParameter`,
replace its symbol by the value, numerically evaluate (`sp.N`), and return a
complex number when nothing symbolic remains, a symbolic expression
otherwise. -/
noncomputable def SympyExpression.subs (self : SExpr) (var : PyParameter) (value : PyValue) :
    Except ParamError ExprOrNum :=
  match var with
  | .foreign _ _ => .error .incompatibleVariableKind
  | .sympyParam _ name =>
      let result := (self.subs name value.toSExpr).numEval
      if result.isNumber || result.freeVars.isEmpty then .ok (.num result.denote0)
      else .ok (.expr result)

/-- Modelled from the spec: `SympyExpression.xreplace` is exercised by the
repository's tests but its definition is not among the provided sources;
following the spec's words, it takes a mapping from parameters to
numeric-or-expression values, validates every key is a Parameter of this
system (same error as `subs` otherwise), applies all replacements
simultaneously, then attempts full numeric evaluation with the shared
result policy. -/
noncomputable def SympyExpression.xreplace (self : SExpr)
    (mapping : List (PyParameter × PyValue)) : Except ParamError ExprOrNum :=
  if mapping.all (fun kv => kv.1.isSympyParameter) then
    let result :=
      (self.xreplace (mapping.map fun kv => (kv.1.paramName, kv.2.toSExpr))).numEval
    if result.isNumber || result.freeVars.isEmpty then .ok (.num result.denote0)
    else .ok (.expr result)
  else .error .incompatibleVariableKind

/-! ## Object-store model

Python objects live in a store; a `SympyExpression` object's only field is its
`_expression` tree. Each method reads fields and constructs new objects
(allocation at the end of the store); the frame theorems show no existing
object is ever modified. -/

/-- The object store: the `_expression` field of each allocated
`SympyExpression`, indexed by address. -/
abbrev Heap := List SExpr

/-- Read the `_expression` field of the object at address `i`. -/
def readH (h : Heap) (i : Nat) : SExpr := h.getD i (.num (.exact 0))

/-- An operand at the store level: a number, a reference to a
`SympyExpression` object, or anything else. -/
inductive HOperand
| num (n : PyNum)
| ref (r : Nat)
| other

/-- Dereference an operand. -/
def HOperand.resolve (h : Heap) : HOperand → Operand
| .num n => .num n
| .ref r => .expr (readH h r)
| .other => .other

/-- A substitution value at the store level. -/
inductive HValue
| int (n : ℤ)
| cplx (c : ℂ)
| ref (r : Nat)

/-- Dereference a substitution value. -/
def HValue.resolve (h : Heap) : HValue → PyValue
| .int n => .int n
| .cplx c => .cplx c
| .ref r => .expr (readH h r)

/-- Wrap an operator result: a produced tree is stored in a freshly allocated
`SympyExpression` object (the `SympyExpression(...)` constructor call);
`NotImplemented` leaves the store untouched. -/
def runOp (h : Heap) : Option SExpr → Heap × Option Nat
| some e => (h ++ [e], some h.length)
| none => (h, none)

/-- `__mul__` at the store level. -/
noncomputable def mulHeap (h : Heap) (self : Nat) (other : HOperand) : Heap × Option Nat :=
  runOp h (SympyExpression.mul (readH h self) (other.resolve h))

/-- `__rmul__` at the store level. -/
noncomputable def rmulHeap (h : Heap) (self : Nat) (other : HOperand) : Heap × Option Nat :=
  runOp h (SympyExpression.rmul (readH h self) (other.resolve h))

/-- `__add__` at the store level. -/
noncomputable def addHeap (h : Heap) (self : Nat) (other : HOperand) : Heap × Option Nat :=
  runOp h (SympyExpression.add (readH h self) (other.resolve h))

/-- `__radd__` at the store level. -/
noncomputable def raddHeap (h : Heap) (self : Nat) (other : HOperand) : Heap × Option Nat :=
  runOp h (SympyExpression.radd (readH h self) (other.resolve h))

/-- `__sub__` at the store level. -/
noncomputable def subHeap (h : Heap) (self : Nat) (other : HOperand) : Heap × Option Nat :=
  runOp h (SympyExpression.sub (readH h self) (other.resolve h))

/-- `__rsub__` at the store level. -/
noncomputable def rsubHeap (h : Heap) (self : Nat) (other : HOperand) : Heap × Option Nat :=
  runOp h (SympyExpression.rsub (readH h self) (other.resolve h))

/-- `__pow__` at the store level. -/
noncomputable def powHeap (h : Heap) (self : Nat) (other : HOperand) : Heap × Option Nat :=
  runOp h (SympyExpression.pow (readH h self) (other.resolve h))

/-- `__rpow__` at the store level. -/
noncomputable def rpowHeap (h : Heap) (self : Nat) (other : HOperand) : Heap × Option Nat :=
  runOp h (SympyExpression.rpow (readH h self) (other.resolve h))

/-- `__truediv__` at the store level. -/
noncomputable def truedivHeap (h : Heap) (self : Nat) (other : HOperand) : Heap × Option Nat :=
  runOp h (SympyExpression.truediv (readH h self) (other.resolve h))

/-- `__rtruediv__` at the store level. -/
noncomputable def rtruedivHeap (h : Heap) (self : Nat) (other : HOperand) : Heap × Option Nat :=
  runOp h (SympyExpression.rtruediv (readH h self) (other.resolve h))

/-- `__neg__` at the store level. -/
def negHeap (h : Heap) (self : Nat) : Heap × Option Nat :=
  runOp h (some (SympyExpression.neg (readH h self)))

/-- `__mod__` at the store level: returns a float, allocates nothing. -/
def modHeap (h : Heap) (self : Nat) (other : HOperand) : Heap × PyFloat :=
  (h, SympyExpression.mod (readH h self) (other.resolve h))

/-- `sin` at the store level. -/
def sinHeap (h : Heap) (self : Nat) : Heap × Option Nat :=
  runOp h (some (SympyExpression.sin (readH h self)))

/-- `cos` at the store level. -/
def cosHeap (h : Heap) (self : Nat) : Heap × Option Nat :=
  runOp h (some (SympyExpression.cos (readH h self)))

/-- `tan` at the store level. -/
def tanHeap (h : Heap) (self : Nat) : Heap × Option Nat :=
  runOp h (some (SympyExpression.tan (readH h self)))

/-- `arcsin` at the store level. -/
def arcsinHeap (h : Heap) (self : Nat) : Heap × Option Nat :=
  runOp h (some (SympyExpression.arcsin (readH h self)))

/-- `arccos` at the store level. -/
def arccosHeap (h : Heap) (self : Nat) : Heap × Option Nat :=
  runOp h (some (SympyExpression.arccos (readH h self)))

/-- `arctan` at the store level. -/
def arctanHeap (h : Heap) (self : Nat) : Heap × Option Nat :=
  runOp h (some (SympyExpression.arctan (readH h self)))

/-- `exp` at the store level. -/
def expHeap (h : Heap) (self : Nat) : Heap × Option Nat :=
  runOp h (some (SympyExpression.exp (readH h self)))

/-- `log` at the store level. -/
def logHeap (h : Heap) (self : Nat) : Heap × Option Nat :=
  runOp h (some (SympyExpression.log (readH h self)))

/-- `conjugate` at the store level. -/
def conjugateHeap (h : Heap) (self : Nat) : Heap × Option Nat :=
  runOp h (some (SympyExpression.conjugate (readH h self)))

/-- `sqrt` at the store level. -/
def sqrtHeap (h : Heap) (self : Nat) : Heap × Option Nat :=
  runOp h (some (SympyExpression.sqrt (readH h self)))

/-- The result of `subs`/`xreplace` at the store level. -/
inductive HResult
| num (c : ℂ)
| ref (r : Nat)

/-- `subs` at the store level: a symbolic result is a freshly allocated
object; a numeric result allocates nothing. -/
noncomputable def subsHeap (h : Heap) (self : Nat) (var : PyParameter) (value : HValue) :
    Heap × Except ParamError HResult :=
  match SympyExpression.subs (readH h self) var (value.resolve h) with
  | .error err => (h, .error err)
  | .ok (.num c) => (h, .ok (.num c))
  | .ok (.expr e) => (h ++ [e], .ok (.ref h.length))

/-- `xreplace` at the store level. -/
noncomputable def xreplaceHeap (h : Heap) (self : Nat)
    (mapping : List (PyParameter × HValue)) : Heap × Except ParamError HResult :=
  match SympyExpression.xreplace (readH h self) (mapping.map fun kv => (kv.1, kv.2.resolve h)) with
  | .error err => (h, .error err)
  | .ok (.num c) => (h, .ok (.num c))
  | .ok (.expr e) => (h ++ [e], .ok (.ref h.length))

/-! ## Helper lemmas -/

theorem readH_append (h : Heap) (e : SExpr) (i : Nat) (hi : i < h.length) :
    readH (h ++ [e]) i = readH h i := by
  simp [readH, List.getD, List.getElem?_append_left hi]

theorem runOp_frame (h : Heap) (res : Option SExpr) (i : Nat) (hi : i < h.length) :
    readH (runOp h res).1 i = readH h i := by
  cases res with
  | none => rfl
  | some e => exact readH_append h e i hi

theorem runOp_fresh (h : Heap) (res : Option SExpr) (r : Nat) :
    (runOp h res).2 = some r → r = h.length := by
  cases res with
  | none => intro hr; simp [runOp] at hr
  | some e => intro hr; simp [runOp] at hr; omega

theorem SExpr.denote_congr (e : SExpr) (env env' : String → ℂ)
    (hagree : ∀ s ∈ e.freeVars, env s = env' s) : e.denote env = e.denote env' := by
  induction e with
  | num n => rfl
  | symbol s => exact hagree s (by simp [SExpr.freeVars])
  | una op a ih =>
      simp only [SExpr.denote]
      rw [ih]
      intro s hs
      exact hagree s (by simpa [SExpr.freeVars] using hs)
  | bin op a b iha ihb =>
      simp only [SExpr.denote]
      rw [iha, ihb]
      · intro s hs
        exact hagree s (by simp [SExpr.freeVars, hs])
      · intro s hs
        exact hagree s (by simp [SExpr.freeVars, hs])

theorem SExpr.denote_of_closed (e : SExpr) (env : String → ℂ) (hc : e.freeVars = []) :
    e.denote env = e.denote0 := by
  apply SExpr.denote_congr
  intro s hs
  rw [hc] at hs
  cases hs

theorem SExpr.freeVars_numEval (e : SExpr) : e.numEval.freeVars = e.freeVars := by
  induction e with
  | num n => rfl
  | symbol s => rfl
  | una op a ih =>
      by_cases hc : (SExpr.una op a).freeVars.isEmpty
      · rw [SExpr.numEval, if_pos hc]
        rw [List.isEmpty_iff] at hc
        simp [SExpr.freeVars, hc]
        simpa [SExpr.freeVars] using hc
      · rw [SExpr.numEval, if_neg hc]
        simp [SExpr.freeVars, ih]
  | bin op a b iha ihb =>
      by_cases hc : (SExpr.bin op a b).freeVars.isEmpty
      · rw [SExpr.numEval, if_pos hc]
        rw [List.isEmpty_iff] at hc
        simp [SExpr.freeVars]
        simpa [SExpr.freeVars] using hc.symm
      · rw [SExpr.numEval, if_neg hc]
        simp [SExpr.freeVars, iha, ihb]

theorem SExpr.numEval_closed (e : SExpr) (hc : e.freeVars = []) :
    e.numEval = .num (.approx e.denote0) := by
  cases e with
  | num n => rfl
  | symbol s => simp [SExpr.freeVars] at hc
  | una op a =>
      rw [SExpr.numEval, if_pos (by simp [hc])]
  | bin op a b =>
      rw [SExpr.numEval, if_pos (by simp [hc])]

theorem SExpr.denote_numEval (e : SExpr) (env : String → ℂ) :
    e.numEval.denote env = e.denote env := by
  induction e with
  | num n => rfl
  | symbol s => rfl
  | una op a ih =>
      by_cases hc : (SExpr.una op a).freeVars.isEmpty
      · rw [SExpr.numEval, if_pos hc]
        rw [List.isEmpty_iff] at hc
        show SymNum.toC (.approx (SExpr.denote0 (.una op a))) = _
        rw [SymNum.toC]
        exact (SExpr.denote_of_closed _ env hc).symm
      · rw [SExpr.numEval, if_neg hc]
        simp [SExpr.denote, ih]
  | bin op a b iha ihb =>
      by_cases hc : (SExpr.bin op a b).freeVars.isEmpty
      · rw [SExpr.numEval, if_pos hc]
        rw [List.isEmpty_iff] at hc
        show SymNum.toC (.approx (SExpr.denote0 (.bin op a b))) = _
        rw [SymNum.toC]
        exact (SExpr.denote_of_closed _ env hc).symm
      · rw [SExpr.numEval, if_neg hc]
        simp [SExpr.denote, iha, ihb]

theorem SExpr.allApprox_numEval (e : SExpr) : e.numEval.allApprox = true := by
  induction e with
  | num n => rfl
  | symbol s => rfl
  | una op a ih =>
      by_cases hc : (SExpr.una op a).freeVars.isEmpty
      · rw [SExpr.numEval, if_pos hc]; rfl
      · rw [SExpr.numEval, if_neg hc]
        simpa [SExpr.allApprox] using ih
  | bin op a b iha ihb =>
      by_cases hc : (SExpr.bin op a b).freeVars.isEmpty
      · rw [SExpr.numEval, if_pos hc]; rfl
      · rw [SExpr.numEval, if_neg hc]
        simp [SExpr.allApprox, iha, ihb]

theorem SExpr.subs_of_not_mem (e : SExpr) (name : String) (v : SExpr)
    (hn : name ∉ e.freeVars) : e.subs name v = e := by
  induction e with
  | num n => rfl
  | symbol s =>
      rw [SExpr.subs, if_neg]
      intro hs
      exact hn (by simp [SExpr.freeVars, hs])
  | una op a ih =>
      rw [SExpr.subs, ih (by simpa [SExpr.freeVars] using hn)]
  | bin op a b iha ihb =>
      rw [SExpr.subs]
      rw [iha, ihb]
      · intro hb
        exact hn (by simp [SExpr.freeVars, hb])
      · intro ha
        exact hn (by simp [SExpr.freeVars, ha])

theorem SExpr.denote_subs (e : SExpr) (name : String) (v : SExpr) (env : String → ℂ) :
    (e.subs name v).denote env
      = e.denote fun s => if s = name then v.denote env else env s := by
  induction e with
  | num n => rfl
  | symbol s => by_cases h : s = name <;> simp [SExpr.subs, SExpr.denote, h]
  | una op a ih => simp [SExpr.subs, SExpr.denote, ih]
  | bin op a b iha ihb => simp [SExpr.subs, SExpr.denote, iha, ihb]

theorem SExpr.denote_xreplace (e : SExpr) (m : List (String × SExpr)) (env : String → ℂ) :
    (e.xreplace m).denote env
      = e.denote fun s => ((m.lookup s).map fun v => v.denote env).getD (env s) := by
  induction e with
  | num n => rfl
  | symbol s => cases hm : m.lookup s <;> simp [SExpr.xreplace, SExpr.denote, hm]
  | una op a ih => simp [SExpr.xreplace, SExpr.denote, ih]
  | bin op a b iha ihb => simp [SExpr.xreplace, SExpr.denote, iha, ihb]

/-! ## Claim theorems -/

/-- C4: for every `SympyExpression` `e` and every operand `x`, `e % x` is the
NaN sentinel; the operation never inspects its operand (the result is the
same for any two operands), and never performs symbolic modulo. (`src/`
defines no reflected modulo, so the reflected form is never reached.) -/
theorem mod_always_nan (e : SExpr) (x : Operand) :
    SympyExpression.mod e x = PyFloat.nan
    ∧ ∀ y : Operand, SympyExpression.mod e x = SympyExpression.mod e y :=
  ⟨rfl, fun _ => rfl⟩

/-- C8: every binary arithmetic operator (add, sub, mul, truediv, pow, in
direct and reflected form), applied to an operand that is neither a numeric
scalar nor a `SympyExpression`, declines by returning `NotImplemented`
(modelled as `none`) rather than raising. -/
theorem unsupported_operand_declines (e : SExpr) :
    SympyExpression.add e .other = none ∧ SympyExpression.radd e .other = none
    ∧ SympyExpression.sub e .other = none ∧ SympyExpression.rsub e .other = none
    ∧ SympyExpression.mul e .other = none ∧ SympyExpression.rmul e .other = none
    ∧ SympyExpression.truediv e .other = none ∧ SympyExpression.rtruediv e .other = none
    ∧ SympyExpression.pow e .other = none ∧ SympyExpression.rpow e .other = none :=
  ⟨rfl, rfl, rfl, rfl, rfl, rfl, rfl, rfl, rfl, rfl⟩

/-- C3: `subs` with a variable that is not a `SympyParameter` raises the
incompatible-variable-kind error immediately (it never silently no-ops),
while with a `SympyParameter` variable no error is ever raised. -/
theorem subs_variable_validation :
    (∀ (e : SExpr) (oid : Nat) (nm : String) (v : PyValue),
      SympyExpression.subs e (.foreign oid nm) v = .error .incompatibleVariableKind)
    ∧ ∀ (e : SExpr) (oid : Nat) (nm : String) (v : PyValue),
      ∃ r, SympyExpression.subs e (.sympyParam oid nm) v = .ok r := by
  constructor
  · intro e oid nm v
    rfl
  · intro e oid nm v
    simp only [SympyExpression.subs]
    split
    · exact ⟨_, rfl⟩
    · exact ⟨_, rfl⟩

/-- C5: mixed operand order: `a + n` and `n + a` (and `a * n` and `n * a`)
denote the same value; the reflected forms of subtraction and division
preserve operand order exactly, so `n - a` is built as `n - a` (denoting
`-(a - n)`) and `n / a` as `n / a` (denoting `1 / (a / n)`). -/
theorem mixed_operand_order (a : SExpr) (n : PyNum) (env : String → ℂ) :
    ((SympyExpression.add a (.num n)).map fun e => e.denote env)
        = ((SympyExpression.radd a (.num n)).map fun e => e.denote env)
    ∧ ((SympyExpression.mul a (.num n)).map fun e => e.denote env)
        = ((SympyExpression.rmul a (.num n)).map fun e => e.denote env)
    ∧ SympyExpression.rsub a (.num n) = some (.bin .sub (.num n.toSNum) a)
    ∧ ((SympyExpression.rsub a (.num n)).map fun e => e.denote env)
        = ((SympyExpression.sub a (.num n)).map fun e => -(e.denote env))
    ∧ SympyExpression.rtruediv a (.num n) = some (.bin .div (.num n.toSNum) a)
    ∧ ((SympyExpression.rtruediv a (.num n)).map fun e => e.denote env)
        = ((SympyExpression.truediv a (.num n)).map fun e => 1 / e.denote env) := by
  refine ⟨?_, ?_, rfl, ?_, rfl, ?_⟩ <;>
    simp only [SympyExpression.add, SympyExpression.radd, SympyExpression.mul,
      SympyExpression.rmul, SympyExpression.sub, SympyExpression.rsub,
      SympyExpression.truediv, SympyExpression.rtruediv, Option.map_some',
      SExpr.denote, BinOp.denote, Option.some_inj]
  · ring
  · ring
  · ring
  · rw [one_div_div]

/-- C6: two `SympyParameter`s constructed with the same name denote the same
bindable variable: substitution matches by the underlying symbol, not by
object identity, so `subs` through a distinct parameter with the same name
replaces occurrences exactly as the original would. -/
theorem subs_matches_by_name (e : SExpr) (v : PyValue) (oid1 oid2 : Nat) (nm : String)
    (hdistinct : oid1 ≠ oid2) :
    SympyExpression.subs e (.sympyParam oid2 nm) v
      = SympyExpression.subs e (.sympyParam oid1 nm) v := rfl

/-- Witness for C6 at a concrete expression and two distinct parameters
both named `x`. -/
theorem subs_matches_by_name_witness :
    (0 : Nat) ≠ 1
    ∧ SympyExpression.subs (.symbol "x") (.sympyParam 1 "x") (.int 2)
        = SympyExpression.subs (.symbol "x") (.sympyParam 0 "x") (.int 2) :=
  ⟨by decide, subs_matches_by_name (.symbol "x") (.int 2) 0 1 "x" (by decide)⟩

/-- C7: idempotence of full substitution: on a `SympyExpression` whose
representation already has no free symbols, `subs` with any parameter and
any value is a no-op returning the unchanged numeric evaluation of that
representation as a complex number. -/
theorem subs_noop_on_closed (e : SExpr) (oid : Nat) (nm : String) (v : PyValue)
    (hc : e.freeVars = []) :
    SympyExpression.subs e (.sympyParam oid nm) v = .ok (.num e.denote0) := by
  have hsub : e.subs nm v.toSExpr = e :=
    SExpr.subs_of_not_mem e nm _ (by rw [hc]; exact List.not_mem_nil nm)
  simp only [SympyExpression.subs, hsub]
  rw [SExpr.numEval_closed e hc]
  simp [SExpr.isNumber, SExpr.denote0, SExpr.denote, SymNum.toC]

/-- Witness for C7 at the closed representation `3`. -/
theorem subs_noop_on_closed_witness :
    (SExpr.num (.exact 3)).freeVars = []
    ∧ SympyExpression.subs (.num (.exact 3)) (.sympyParam 0 "x") (.int 5)
        = .ok (.num (SExpr.denote0 (.num (.exact 3)))) :=
  ⟨rfl, subs_noop_on_closed (.num (.exact 3)) 0 "x" (.int 5) rfl⟩

theorem SExpr.freeVars_of_isNumber (e : SExpr) (hn : e.isNumber = true) : e.freeVars = [] := by
  cases e with
  | num n => rfl
  | symbol s => simp [SExpr.isNumber] at hn
  | una op a => simp [SExpr.isNumber] at hn
  | bin op a b => simp [SExpr.isNumber] at hn

/-- C2: `subs` replaces every occurrence of the parameter's underlying symbol
by the value (the substituted tree denotes the original under the updated
environment), attempts full numeric evaluation, and returns a concrete complex
number when no free symbols remain, a symbolic expression wrapping the
partially-substituted representation otherwise; `e = x*2 + 1` with `x := 3`
yields the complex number `7`. -/
theorem subs_replaces_and_evaluates :
    (∀ (e : SExpr) (nm : String) (v : PyValue) (env : String → ℂ),
      (e.subs nm v.toSExpr).denote env
        = e.denote fun s => if s = nm then v.toSExpr.denote env else env s)
    ∧ (∀ (e : SExpr) (oid : Nat) (nm : String) (v : PyValue),
        (e.subs nm v.toSExpr).freeVars = [] →
        SympyExpression.subs e (.sympyParam oid nm) v
          = .ok (.num (e.subs nm v.toSExpr).denote0))
    ∧ (∀ (e : SExpr) (oid : Nat) (nm : String) (v : PyValue),
        (e.subs nm v.toSExpr).freeVars ≠ [] →
        SympyExpression.subs e (.sympyParam oid nm) v
          = .ok (.expr (e.subs nm v.toSExpr).numEval))
    ∧ SympyExpression.subs
        (.bin .add (.bin .mul (.symbol "x") (.num (.exact 2))) (.num (.exact 1)))
        (.sympyParam 0 "x") (.int 3)
      = .ok (.num 7) := by
  have hclosedCase : ∀ (e : SExpr) (oid : Nat) (nm : String) (v : PyValue),
      (e.subs nm v.toSExpr).freeVars = [] →
      SympyExpression.subs e (.sympyParam oid nm) v
        = .ok (.num (e.subs nm v.toSExpr).denote0) := by
    intro e oid nm v hclosed
    simp only [SympyExpression.subs]
    rw [SExpr.numEval_closed _ hclosed]
    simp [SExpr.isNumber, SExpr.denote0, SExpr.denote, SymNum.toC]
  refine ⟨fun e nm v env => SExpr.denote_subs e nm _ env, hclosedCase, ?_, ?_⟩
  · intro e oid nm v hopen
    simp only [SympyExpression.subs]
    rw [if_neg]
    intro hcond
    rcases Bool.or_eq_true_iff.mp hcond with hn | hn
    · have hz := SExpr.freeVars_of_isNumber _ hn
      rw [SExpr.freeVars_numEval] at hz
      exact hopen hz
    · have hz := List.isEmpty_iff.mp hn
      rw [SExpr.freeVars_numEval] at hz
      exact hopen hz
  · rw [hclosedCase _ 0 "x" (.int 3)
      (by simp [SExpr.subs, SExpr.freeVars, PyValue.toSExpr])]
    norm_num [SExpr.subs, PyValue.toSExpr, SExpr.denote0, SExpr.denote, SymNum.toC,
      BinOp.denote]

/-- Witness for C2: the round-trip example `x*2 + 1` with `x := 3` collapses
to a number (second conjunct of the theorem), and partial substitution on
`x + y` stays symbolic (third conjunct). -/
theorem subs_replaces_and_evaluates_witness :
    ((SExpr.bin .add (.bin .mul (.symbol "x") (.num (.exact 2))) (.num (.exact 1))).subs "x"
        (PyValue.toSExpr (.int 3))).freeVars = []
    ∧ SympyExpression.subs
        (.bin .add (.bin .mul (.symbol "x") (.num (.exact 2))) (.num (.exact 1)))
        (.sympyParam 0 "x") (.int 3)
      = .ok (.num ((SExpr.bin .add (.bin .mul (.symbol "x") (.num (.exact 2)))
          (.num (.exact 1))).subs "x" (PyValue.toSExpr (.int 3))).denote0)
    ∧ SympyExpression.subs (.bin .add (.symbol "x") (.symbol "y")) (.sympyParam 0 "x") (.int 2)
      = .ok (.expr (((SExpr.bin .add (.symbol "x") (.symbol "y")).subs "x"
          (PyValue.toSExpr (.int 2))).numEval)) :=
  ⟨by simp [SExpr.subs, SExpr.freeVars, PyValue.toSExpr],
   subs_replaces_and_evaluates.2.1 _ 0 "x" (.int 3)
     (by simp [SExpr.subs, SExpr.freeVars, PyValue.toSExpr]),
   subs_replaces_and_evaluates.2.2.1 _ 0 "x" (.int 2)
     (by simp [SExpr.subs, SExpr.freeVars, PyValue.toSExpr])⟩

/-- C10: whenever `subs` returns a still-symbolic expression, numeric
evaluation (`sp.N`) has been applied to the entire substituted representation
before wrapping: every numeric literal of the returned tree — including exact
constants in parts untouched by the substitution — has been collapsed to a
floating-point (approximate) literal. -/
theorem subs_result_all_approx :
    ∀ (e : SExpr) (oid : Nat) (nm : String) (v : PyValue) (E : SExpr),
      SympyExpression.subs e (.sympyParam oid nm) v = .ok (.expr E) →
      E.allApprox = true := by
  intro e oid nm v E hE
  simp only [SympyExpression.subs] at hE
  split at hE
  · exact absurd hE (by simp)
  · simp only [Except.ok.injEq, ExprOrNum.expr.injEq] at hE
    rw [← hE]
    exact SExpr.allApprox_numEval _

/-- C1: batched substitution `xreplace` validates that every key of the
mapping is a `SympyParameter` (incompatible-variable-kind error otherwise)
and applies all replacements simultaneously — the replacement engine
substitutes every mapped symbol by its value in one pass, so substituted
values are never themselves further substituted; on `e = x + y` with the
mapping `x ↦ y, y ↦ 1` the result is the still-symbolic `y + 1`
(denoting `y + 1`, not the constant `2`). -/
theorem xreplace_batched_substitution :
    (∀ (e : SExpr) (mapping : List (PyParameter × PyValue)),
      mapping.all (fun kv => kv.1.isSympyParameter) = false →
      SympyExpression.xreplace e mapping = .error .incompatibleVariableKind)
    ∧ (∀ (e : SExpr) (m : List (String × SExpr)) (env : String → ℂ),
        (e.xreplace m).denote env
          = e.denote fun s => ((m.lookup s).map fun v => v.denote env).getD (env s))
    ∧ ∃ E : SExpr,
        SympyExpression.xreplace (.bin .add (.symbol "x") (.symbol "y"))
          [(.sympyParam 0 "x", .expr (.symbol "y")), (.sympyParam 1 "y", .int 1)]
          = .ok (.expr E)
        ∧ (∀ env : String → ℂ, E.denote env = env "y" + 1)
        ∧ E.denote (fun _ => 0) ≠ 2 := by
  refine ⟨?_, fun e m env => SExpr.denote_xreplace e m env, ?_⟩
  · intro e mapping hall
    rw [SympyExpression.xreplace, if_neg]
    simp [hall]
  · refine ⟨.bin .add (.symbol "y") (.num (.approx 1)), ?_, ?_, ?_⟩
    · rw [SympyExpression.xreplace, if_pos (by rfl)]
      norm_num [SExpr.xreplace, PyParameter.paramName, PyValue.toSExpr, List.lookup,
        SExpr.numEval, SExpr.freeVars, SExpr.isNumber, SymNum.toC]
    · intro env
      norm_num [SExpr.denote, SymNum.toC, BinOp.denote]
    · norm_num [SExpr.denote, SymNum.toC, BinOp.denote]

/-- Witness for C1: a mapping with a foreign key is rejected with the
incompatible-variable-kind error. -/
theorem xreplace_batched_substitution_witness :
    ([((PyParameter.foreign 0 "z"), PyValue.int 1)].all (fun kv => kv.1.isSympyParameter)
        = false)
    ∧ SympyExpression.xreplace (.symbol "x") [(.foreign 0 "z", .int 1)]
        = .error .incompatibleVariableKind :=
  ⟨rfl, xreplace_batched_substitution.1 (.symbol "x") [(.foreign 0 "z", .int 1)] rfl⟩

/-- C9: no operation mutates an expression object. In the object-store
model, every operation (arithmetic, the NaN modulo, the transcendental
transforms, and both substitutions) leaves every existing object's
`_expression` field unchanged — it only ever allocates a fresh object for
its result, at a fresh address (the old store length). -/
theorem operations_allocate_only
    (h : Heap) (self : Nat) (oth : HOperand) (var : PyParameter) (value : HValue)
    (mapping : List (PyParameter × HValue)) (i : Nat) (hi : i < h.length) :
    readH (mulHeap h self oth).1 i = readH h i
    ∧ readH (rmulHeap h self oth).1 i = readH h i
    ∧ readH (addHeap h self oth).1 i = readH h i
    ∧ readH (raddHeap h self oth).1 i = readH h i
    ∧ readH (subHeap h self oth).1 i = readH h i
    ∧ readH (rsubHeap h self oth).1 i = readH h i
    ∧ readH (powHeap h self oth).1 i = readH h i
    ∧ readH (rpowHeap h self oth).1 i = readH h i
    ∧ readH (truedivHeap h self oth).1 i = readH h i
    ∧ readH (rtruedivHeap h self oth).1 i = readH h i
    ∧ readH (negHeap h self).1 i = readH h i
    ∧ (modHeap h self oth).1 = h
    ∧ readH (sinHeap h self).1 i = readH h i
    ∧ readH (cosHeap h self).1 i = readH h i
    ∧ readH (tanHeap h self).1 i = readH h i
    ∧ readH (arcsinHeap h self).1 i = readH h i
    ∧ readH (arccosHeap h self).1 i = readH h i
    ∧ readH (arctanHeap h self).1 i = readH h i
    ∧ readH (expHeap h self).1 i = readH h i
    ∧ readH (logHeap h self).1 i = readH h i
    ∧ readH (conjugateHeap h self).1 i = readH h i
    ∧ readH (sqrtHeap h self).1 i = readH h i
    ∧ readH (subsHeap h self var value).1 i = readH h i
    ∧ readH (xreplaceHeap h self mapping).1 i = readH h i
    ∧ (∀ r, (mulHeap h self oth).2 = some r → r = h.length)
    ∧ (∀ r, (subsHeap h self var value).2 = .ok (.ref r) → r = h.length) := by
  have hsubs1 : readH (subsHeap h self var value).1 i = readH h i := by
    cases hx : SympyExpression.subs (readH h self) var (value.resolve h) with
    | error err => simp [subsHeap, hx]
    | ok r =>
        cases r with
        | num c => simp [subsHeap, hx]
        | expr ee => simp [subsHeap, hx, readH_append h ee i hi]
  have hsubs2 : ∀ r, (subsHeap h self var value).2 = .ok (.ref r) → r = h.length := by
    intro r
    cases hx : SympyExpression.subs (readH h self) var (value.resolve h) with
    | error err => simp [subsHeap, hx]
    | ok res =>
        cases res with
        | num c => simp [subsHeap, hx]
        | expr ee =>
            simp only [subsHeap, hx]
            intro hr
            simp only [Except.ok.injEq, HResult.ref.injEq] at hr
            omega
  have hxrep : readH (xreplaceHeap h self mapping).1 i = readH h i := by
    cases hx : SympyExpression.xreplace (readH h self)
        (mapping.map fun kv => (kv.1, kv.2.resolve h)) with
    | error err => simp [xreplaceHeap, hx]
    | ok r =>
        cases r with
        | num c => simp [xreplaceHeap, hx]
        | expr ee => simp [xreplaceHeap, hx, readH_append h ee i hi]
  refine ⟨runOp_frame _ _ _ hi, runOp_frame _ _ _ hi, runOp_frame _ _ _ hi,
    runOp_frame _ _ _ hi, runOp_frame _ _ _ hi, runOp_frame _ _ _ hi,
    runOp_frame _ _ _ hi, runOp_frame _ _ _ hi, runOp_frame _ _ _ hi,
    runOp_frame _ _ _ hi, runOp_frame _ _ _ hi, rfl,
    runOp_frame _ _ _ hi, runOp_frame _ _ _ hi, runOp_frame _ _ _ hi,
    runOp_frame _ _ _ hi, runOp_frame _ _ _ hi, runOp_frame _ _ _ hi,
    runOp_frame _ _ _ hi, runOp_frame _ _ _ hi, runOp_frame _ _ _ hi,
    runOp_frame _ _ _ hi, hsubs1, hxrep,
    fun r => runOp_fresh h _ r, hsubs2⟩

/-- Witness for C9 on a two-object store: multiplying object 0 by object 1
leaves object 0's representation unchanged. -/
theorem operations_allocate_only_witness :
    readH (mulHeap [SExpr.symbol "x", SExpr.num (.exact 1)] 0 (.ref 1)).1 0
      = readH [SExpr.symbol "x", SExpr.num (.exact 1)] 0 :=
  (operations_allocate_only [SExpr.symbol "x", SExpr.num (.exact 1)] 0 (.ref 1)
    (.sympyParam 0 "x") (.int 2) [] 0 (by decide)).1

/-- Witness for C10: substituting `y := 1` in `x/3 + y` leaves `x` free, and
the returned symbolic tree has the untouched exact constant `3` collapsed to
an approximate literal. -/
theorem subs_result_all_approx_witness :
    SympyExpression.subs (.bin .add (.bin .div (.symbol "x") (.num (.exact 3))) (.symbol "y"))
      (.sympyParam 0 "y") (.int 1)
    = .ok (.expr (.bin .add (.bin .div (.symbol "x") (.num (.approx 3))) (.num (.approx 1))))
    ∧ (SExpr.bin .add (.bin .div (.symbol "x") (.num (.approx 3)))
        (.num (.approx 1))).allApprox = true := by
  have hcomp : SympyExpression.subs
      (.bin .add (.bin .div (.symbol "x") (.num (.exact 3))) (.symbol "y"))
      (.sympyParam 0 "y") (.int 1)
    = .ok (.expr (.bin .add (.bin .div (.symbol "x") (.num (.approx 3)))
        (.num (.approx 1)))) := by
    rw [SympyExpression.subs]
    norm_num [SExpr.subs, PyValue.toSExpr, SExpr.numEval, SExpr.freeVars, SExpr.isNumber,
      SymNum.toC]
  exact ⟨hcomp, subs_result_all_approx _ 0 "y" (.int 1) _ hcomp⟩
